import Mathlib

/-!
Shallow embedding of the Game-of-Life simulation core of conway-rs
(src/main.rs) and verification of its specification.

Modelling conventions:
* The fixed-size Rust array `[[Cell; MAP_HEIGHT]; MAP_WIDTH]` is modelled as a
  total function `Nat → Nat → Cell`; a mutation of one array slot becomes a
  pointwise functional update (`setCell`).
* Rust `usize` values become `Nat`.  The only subtractions the source performs
  (`self.width - 1`, `x - 1`, `linger - 1`) are guarded in the source exactly
  where Nat truncation matches Rust behaviour for the values that arise
  (width = 300, height = 80 in every state the program constructs).
* Rust `for i in a..b` loops become `List.foldl` over `List.range` / ranges,
  threading the mutated `Map` as explicit state.
* The fallible array indexing in `toggle` (which can panic for out-of-range
  coordinates, including negative `i32` values cast to `usize`) is modelled
  with `Option`: `none` is the panic.
* The Perlin-noise source used by `init_noise` lives in the external tcod
  library; only the boolean `noise >= 0.0` test reaches the grid, so the noise
  is abstracted as an oracle predicate `Nat → Nat → Bool`.
-/

namespace Conway

/-- `const MAP_WIDTH: usize = 300;` -/
def MAP_WIDTH : Nat := 300

/-- `const MAP_HEIGHT: usize = 80;` -/
def MAP_HEIGHT : Nat := 80

/-- `const SCREEN_WIDTH: i32 = 80;` -/
def SCREEN_WIDTH : Int := 80

/-- `const SCREEN_HEIGHT: i32 = 40;` -/
def SCREEN_HEIGHT : Int := 40

/-- `struct Cell { alive: bool, linger: u8, flip: bool }`.
`linger` is a `u8` in the source; it is only ever changed by the guarded
`inc_linger` / `dec_linger`, so `Nat` models it exactly (no wraparound can
occur). -/
structure Cell where
  alive : Bool
  linger : Nat
  flip : Bool
deriving DecidableEq, Repr

/-- `struct Map` with the grid array as a total function. -/
structure Map where
  map : Nat → Nat → Cell
  height : Nat
  width : Nat
  o_x : Int
  o_y : Int

/-- `Map::new` -/
def Map.new : Map where
  map := fun _ _ => { alive := false, linger := 0, flip := false }
  height := MAP_HEIGHT
  width := MAP_WIDTH
  o_x := ((MAP_WIDTH : Int) - SCREEN_WIDTH) / 2
  o_y := ((MAP_HEIGHT : Int) - SCREEN_HEIGHT) / 2

/-- Functional update of one grid slot: the model of `self.map[x][y] = c`. -/
def Map.setCell (m : Map) (x y : Nat) (c : Cell) : Map :=
  { m with map := fun a b => if a = x ∧ b = y then c else m.map a b }

/-- `Map::inc_linger`: `if self.map[x][y].linger < 9 { self.map[x][y].linger += 1; }` -/
def Map.inc_linger (m : Map) (x y : Nat) : Map :=
  if (m.map x y).linger < 9 then
    m.setCell x y { m.map x y with linger := (m.map x y).linger + 1 }
  else m

/-- `Map::dec_linger`: `if self.map[x][y].linger > 0 { self.map[x][y].linger -= 1; }` -/
def Map.dec_linger (m : Map) (x y : Nat) : Map :=
  if (m.map x y).linger > 0 then
    m.setCell x y { m.map x y with linger := (m.map x y).linger - 1 }
  else m

/-- `Map::live_neighbours`: counts alive cells in the clamped window
`[li..hi] × [lj..hj]` around `(x, y)`, skipping the centre.  The source
returns `i32` but only ever increments a counter starting at 0, so `Nat` is
exact. -/
def Map.live_neighbours (m : Map) (x y : Nat) : Nat :=
  let h := m.height - 1
  let w := m.width - 1
  let li := if x = 0 then 0 else x - 1
  let lj := if y = 0 then 0 else y - 1
  let hi := if x = w then w else x + 1
  let hj := if y = h then h else y + 1
  (List.range' li (hi + 1 - li)).foldl (fun count i =>
    (List.range' lj (hj + 1 - lj)).foldl (fun c j =>
      if i = x ∧ j = y then c
      else if (m.map i j).alive then c + 1 else c) count) 0

/-- `Map::flip_one`: sets the flip flag and returns the flag value. -/
def Map.flip_one (m : Map) (x y : Nat) (f : Bool) : Map × Bool :=
  (m.setCell x y { m.map x y with flip := f }, f)

/-- `Map::live_die`: decides the Conway rule for cell `(x, y)` from the
current alive flags and marks the cell for flipping when it must change. -/
def Map.live_die (m : Map) (x y : Nat) : Map × Bool :=
  let n := m.live_neighbours x y
  if (m.map x y).alive then
    if n > 3 ∨ n < 2 then m.flip_one x y true else (m, false)
  else
    if n = 3 then m.flip_one x y true else (m, false)

/-- `Map::flip_all`: commits every pending flip in `[0, width-1) × [0, height-1)`
(the source's `for x in 0..(self.width - 1)` is exclusive on the right). -/
def Map.flip_all (m : Map) : Map :=
  (List.range (m.width - 1)).foldl (fun acc x =>
    (List.range (m.height - 1)).foldl (fun a2 y =>
      if (a2.map x y).flip then
        a2.setCell x y { alive := !(a2.map x y).alive,
                         linger := (a2.map x y).linger, flip := false }
      else a2) acc) m

/-- `Map::init_noise`, with the tcod Perlin noise abstracted as the oracle
`noiseAlive x y` standing for the source's test `noise >= 0.0` at `(x, y)`. -/
def Map.init_noise (noiseAlive : Nat → Nat → Bool) (m : Map) : Map :=
  (List.range (m.width - 1)).foldl (fun acc x =>
    (List.range (m.height - 1)).foldl (fun a2 y =>
      if noiseAlive x y then
        a2.setCell x y { a2.map x y with alive := true }
      else a2) acc) m

/-- The Rust cast `x as usize` for an `i32` value on a 64-bit target:
sign-extend and reinterpret, i.e. reduce modulo `2^64`.  Negative inputs land
far above any valid index. -/
def usizeOfI32 (x : Int) : Nat := (x % (2 ^ 64 : Int)).toNat

/-- `Map::toggle`: unguarded double indexing `self.map[i][j]` after casting the
`i32` arguments to `usize`.  The Rust indexing panics when the index is out of
the fixed array bounds (`MAP_WIDTH` × `MAP_HEIGHT`); the panic is `none`. -/
def Map.toggle (m : Map) (x y : Int) : Option Map :=
  let i := usizeOfI32 x
  let j := usizeOfI32 y
  if i < MAP_WIDTH ∧ j < MAP_HEIGHT then
    some (m.setCell i j { m.map i j with alive := !(m.map i j).alive })
  else none

/-- Phase 1 of `Map::tick`: `live_die` on every cell of
`[0, width-1) × [0, height-1)`, discarding the returned bool. -/
def Map.decide_phase (m : Map) : Map :=
  (List.range (m.width - 1)).foldl (fun acc i =>
    (List.range (m.height - 1)).foldl (fun a2 j =>
      (a2.live_die i j).1) acc) m

/-- Phase 3 of `Map::tick`: live cells brighten, dead cells fade. -/
def Map.linger_phase (m : Map) : Map :=
  (List.range (m.width - 1)).foldl (fun acc i =>
    (List.range (m.height - 1)).foldl (fun a2 j =>
      if (a2.map i j).alive then a2.inc_linger i j else a2.dec_linger i j) acc) m

/-- `Map::tick`: decision phase, then `flip_all`, then the linger update. -/
def Map.tick (m : Map) : Map :=
  (m.decide_phase.flip_all).linger_phase

/-- The Conway decision `live_die` computes for a cell, as a pure predicate of
the current grid: `true` iff the cell must change state. -/
def Map.shouldFlip (m : Map) (x y : Nat) : Bool :=
  if (m.map x y).alive then
    decide (m.live_neighbours x y > 3 ∨ m.live_neighbours x y < 2)
  else
    decide (m.live_neighbours x y = 3)

/-- The per-cell linger update of tick's third phase, as a pure function. -/
def lingerStep (c : Cell) : Nat :=
  if c.alive then (if c.linger < 9 then c.linger + 1 else c.linger)
  else c.linger - 1

/-! ### Field-wise lemmas for the primitive operations -/

theorem Map.setCell_map (m : Map) (x y : Nat) (c : Cell) (a b : Nat) :
    (m.setCell x y c).map a b = if a = x ∧ b = y then c else m.map a b := rfl

@[simp] theorem Map.setCell_width (m : Map) (x y : Nat) (c : Cell) :
    (m.setCell x y c).width = m.width := rfl

@[simp] theorem Map.setCell_height (m : Map) (x y : Nat) (c : Cell) :
    (m.setCell x y c).height = m.height := rfl

@[simp] theorem Map.live_die_width (m : Map) (x y : Nat) :
    ((m.live_die x y).1).width = m.width := by
  unfold Map.live_die Map.flip_one
  dsimp only
  split_ifs <;> rfl

@[simp] theorem Map.live_die_height (m : Map) (x y : Nat) :
    ((m.live_die x y).1).height = m.height := by
  unfold Map.live_die Map.flip_one
  dsimp only
  split_ifs <;> rfl

theorem Map.live_die_map_alive (m : Map) (x y a b : Nat) :
    (((m.live_die x y).1).map a b).alive = (m.map a b).alive := by
  unfold Map.live_die Map.flip_one
  dsimp only
  by_cases hab : a = x ∧ b = y
  · obtain ⟨ha, hb⟩ := hab
    subst ha; subst hb
    split_ifs with h1 h2 h2 <;> simp [Map.setCell_map, h1]
  · split_ifs with h1 h2 h2 <;> simp [Map.setCell_map, hab]

theorem Map.live_die_map_linger (m : Map) (x y a b : Nat) :
    (((m.live_die x y).1).map a b).linger = (m.map a b).linger := by
  unfold Map.live_die Map.flip_one
  dsimp only
  by_cases hab : a = x ∧ b = y
  · obtain ⟨ha, hb⟩ := hab
    subst ha; subst hb
    split_ifs with h1 h2 h2 <;> simp [Map.setCell_map]
  · split_ifs with h1 h2 h2 <;> simp [Map.setCell_map, hab]

theorem Map.live_die_map_flip (m : Map) (x y a b : Nat) :
    (((m.live_die x y).1).map a b).flip =
      ((decide (a = x ∧ b = y) && m.shouldFlip x y) || (m.map a b).flip) := by
  unfold Map.live_die Map.flip_one Map.shouldFlip
  dsimp only
  by_cases hab : a = x ∧ b = y
  · obtain ⟨ha, hb⟩ := hab
    subst ha; subst hb
    split_ifs with h1 h2 h2 <;> simp_all [Map.setCell_map]
  · split_ifs with h1 h2 h2 <;> simp [Map.setCell_map, hab, h1, h2]

theorem Map.live_die_snd (m : Map) (x y : Nat) :
    (m.live_die x y).2 = m.shouldFlip x y := by
  unfold Map.live_die Map.flip_one Map.shouldFlip
  dsimp only
  split_ifs <;> simp_all

/-- `live_neighbours` reads only the alive flags and the grid dimensions. -/
theorem Map.live_neighbours_congr (m1 m2 : Map) (hw : m1.width = m2.width)
    (hh : m1.height = m2.height)
    (ha : ∀ a b, (m1.map a b).alive = (m2.map a b).alive) (x y : Nat) :
    m1.live_neighbours x y = m2.live_neighbours x y := by
  unfold Map.live_neighbours
  dsimp only
  rw [hw, hh]
  refine List.foldl_ext _ _ _ (fun c i _ => ?_)
  refine List.foldl_ext _ _ _ (fun c2 j _ => ?_)
  rw [ha i j]

/-- `shouldFlip` reads only the alive flags and the grid dimensions. -/
theorem Map.shouldFlip_congr (m1 m2 : Map) (hw : m1.width = m2.width)
    (hh : m1.height = m2.height)
    (ha : ∀ a b, (m1.map a b).alive = (m2.map a b).alive) (x y : Nat) :
    m1.shouldFlip x y = m2.shouldFlip x y := by
  unfold Map.shouldFlip
  rw [ha x y, Map.live_neighbours_congr m1 m2 hw hh ha x y]

@[simp] theorem Map.inc_linger_width (m : Map) (x y : Nat) :
    (m.inc_linger x y).width = m.width := by
  unfold Map.inc_linger; split_ifs <;> rfl

@[simp] theorem Map.inc_linger_height (m : Map) (x y : Nat) :
    (m.inc_linger x y).height = m.height := by
  unfold Map.inc_linger; split_ifs <;> rfl

@[simp] theorem Map.dec_linger_width (m : Map) (x y : Nat) :
    (m.dec_linger x y).width = m.width := by
  unfold Map.dec_linger; split_ifs <;> rfl

@[simp] theorem Map.dec_linger_height (m : Map) (x y : Nat) :
    (m.dec_linger x y).height = m.height := by
  unfold Map.dec_linger; split_ifs <;> rfl

theorem Map.inc_linger_map_alive (m : Map) (x y a b : Nat) :
    ((m.inc_linger x y).map a b).alive = (m.map a b).alive := by
  unfold Map.inc_linger
  by_cases hab : a = x ∧ b = y
  · obtain ⟨ha, hb⟩ := hab; subst ha; subst hb
    split_ifs <;> simp [Map.setCell_map]
  · split_ifs <;> simp [Map.setCell_map, hab]

theorem Map.inc_linger_map_flip (m : Map) (x y a b : Nat) :
    ((m.inc_linger x y).map a b).flip = (m.map a b).flip := by
  unfold Map.inc_linger
  by_cases hab : a = x ∧ b = y
  · obtain ⟨ha, hb⟩ := hab; subst ha; subst hb
    split_ifs <;> simp [Map.setCell_map]
  · split_ifs <;> simp [Map.setCell_map, hab]

theorem Map.inc_linger_map_linger (m : Map) (x y a b : Nat) :
    ((m.inc_linger x y).map a b).linger =
      if a = x ∧ b = y then
        (if (m.map x y).linger < 9 then (m.map x y).linger + 1 else (m.map x y).linger)
      else (m.map a b).linger := by
  unfold Map.inc_linger
  by_cases hab : a = x ∧ b = y
  · obtain ⟨ha, hb⟩ := hab; subst ha; subst hb
    split_ifs with h h2 <;> simp_all [Map.setCell_map]
  · split_ifs <;> simp [Map.setCell_map, hab]

theorem Map.dec_linger_map_alive (m : Map) (x y a b : Nat) :
    ((m.dec_linger x y).map a b).alive = (m.map a b).alive := by
  unfold Map.dec_linger
  by_cases hab : a = x ∧ b = y
  · obtain ⟨ha, hb⟩ := hab; subst ha; subst hb
    split_ifs <;> simp [Map.setCell_map]
  · split_ifs <;> simp [Map.setCell_map, hab]

theorem Map.dec_linger_map_flip (m : Map) (x y a b : Nat) :
    ((m.dec_linger x y).map a b).flip = (m.map a b).flip := by
  unfold Map.dec_linger
  by_cases hab : a = x ∧ b = y
  · obtain ⟨ha, hb⟩ := hab; subst ha; subst hb
    split_ifs <;> simp [Map.setCell_map]
  · split_ifs <;> simp [Map.setCell_map, hab]

theorem Map.dec_linger_map_linger (m : Map) (x y a b : Nat) :
    ((m.dec_linger x y).map a b).linger =
      if a = x ∧ b = y then (m.map x y).linger - 1
      else (m.map a b).linger := by
  unfold Map.dec_linger
  by_cases hab : a = x ∧ b = y
  · obtain ⟨ha, hb⟩ := hab; subst ha; subst hb
    split_ifs with h h2 <;> simp_all [Map.setCell_map]
  · split_ifs <;> simp [Map.setCell_map, hab]

/-! ### Characterisation of the decision phase of `tick` -/

theorem or_decide_merge (pt pj pc : Prop) [Decidable pt] [Decidable pj] [Decidable pc]
    (hiff : pc ↔ pj ∨ pt) (s o : Bool) :
    ((decide pt && s) || ((decide pj && s) || o)) = ((decide pc && s) || o) := by
  by_cases h1 : pt <;> by_cases h2 : pj <;> simp [h1, h2, hiff]

theorem decideInner_width (i : Nat) (js : List Nat) : ∀ (m : Map),
    (js.foldl (fun a2 j => (a2.live_die i j).1) m).width = m.width := by
  induction js with
  | nil => intro m; rfl
  | cons j t ih =>
    intro m
    simp only [List.foldl_cons]
    rw [ih]
    exact m.live_die_width i j

theorem decideInner_height (i : Nat) (js : List Nat) : ∀ (m : Map),
    (js.foldl (fun a2 j => (a2.live_die i j).1) m).height = m.height := by
  induction js with
  | nil => intro m; rfl
  | cons j t ih =>
    intro m
    simp only [List.foldl_cons]
    rw [ih]
    exact m.live_die_height i j

theorem decideInner_alive (i : Nat) (js : List Nat) : ∀ (m : Map) (a b : Nat),
    ((js.foldl (fun a2 j => (a2.live_die i j).1) m).map a b).alive =
      (m.map a b).alive := by
  induction js with
  | nil => intro m a b; rfl
  | cons j t ih =>
    intro m a b
    simp only [List.foldl_cons]
    rw [ih]
    exact m.live_die_map_alive i j a b

theorem decideInner_linger (i : Nat) (js : List Nat) : ∀ (m : Map) (a b : Nat),
    ((js.foldl (fun a2 j => (a2.live_die i j).1) m).map a b).linger =
      (m.map a b).linger := by
  induction js with
  | nil => intro m a b; rfl
  | cons j t ih =>
    intro m a b
    simp only [List.foldl_cons]
    rw [ih]
    exact m.live_die_map_linger i j a b

theorem decideInner_flip (i : Nat) (js : List Nat) : ∀ (m : Map) (a b : Nat),
    ((js.foldl (fun a2 j => (a2.live_die i j).1) m).map a b).flip =
      ((decide (a = i ∧ b ∈ js) && m.shouldFlip a b) || (m.map a b).flip) := by
  induction js with
  | nil => intro m a b; simp
  | cons j t ih =>
    intro m a b
    simp only [List.foldl_cons]
    rw [ih]
    have hsf : ((m.live_die i j).1).shouldFlip a b = m.shouldFlip a b :=
      Map.shouldFlip_congr _ _ (m.live_die_width i j) (m.live_die_height i j)
        (fun p q => m.live_die_map_alive i j p q) a b
    rw [hsf, Map.live_die_map_flip]
    have hstep : (decide (a = i ∧ b = j) && m.shouldFlip i j) =
        (decide (a = i ∧ b = j) && m.shouldFlip a b) := by
      by_cases hp : a = i ∧ b = j
      · obtain ⟨h1, h2⟩ := hp; subst h1; subst h2; rfl
      · simp [hp]
    rw [hstep]
    exact or_decide_merge (a = i ∧ b ∈ t) (a = i ∧ b = j) (a = i ∧ b ∈ j :: t)
      (by rw [List.mem_cons, and_or_left]) (m.shouldFlip a b) ((m.map a b).flip)

theorem decideOuter_width (is js : List Nat) : ∀ (m : Map),
    (is.foldl (fun acc i => js.foldl (fun a2 j => (a2.live_die i j).1) acc) m).width =
      m.width := by
  induction is with
  | nil => intro m; rfl
  | cons i t ih =>
    intro m
    simp only [List.foldl_cons]
    rw [ih]
    exact decideInner_width i js m

theorem decideOuter_height (is js : List Nat) : ∀ (m : Map),
    (is.foldl (fun acc i => js.foldl (fun a2 j => (a2.live_die i j).1) acc) m).height =
      m.height := by
  induction is with
  | nil => intro m; rfl
  | cons i t ih =>
    intro m
    simp only [List.foldl_cons]
    rw [ih]
    exact decideInner_height i js m

theorem decideOuter_alive (is js : List Nat) : ∀ (m : Map) (a b : Nat),
    ((is.foldl (fun acc i => js.foldl (fun a2 j => (a2.live_die i j).1) acc) m).map a b).alive =
      (m.map a b).alive := by
  induction is with
  | nil => intro m a b; rfl
  | cons i t ih =>
    intro m a b
    simp only [List.foldl_cons]
    rw [ih]
    exact decideInner_alive i js m a b

theorem decideOuter_linger (is js : List Nat) : ∀ (m : Map) (a b : Nat),
    ((is.foldl (fun acc i => js.foldl (fun a2 j => (a2.live_die i j).1) acc) m).map a b).linger =
      (m.map a b).linger := by
  induction is with
  | nil => intro m a b; rfl
  | cons i t ih =>
    intro m a b
    simp only [List.foldl_cons]
    rw [ih]
    exact decideInner_linger i js m a b

theorem decideOuter_flip (is js : List Nat) : ∀ (m : Map) (a b : Nat),
    ((is.foldl (fun acc i => js.foldl (fun a2 j => (a2.live_die i j).1) acc) m).map a b).flip =
      ((decide (a ∈ is ∧ b ∈ js) && m.shouldFlip a b) || (m.map a b).flip) := by
  induction is with
  | nil => intro m a b; simp
  | cons i t ih =>
    intro m a b
    simp only [List.foldl_cons]
    rw [ih]
    have hsf : ((js.foldl (fun a2 j => (a2.live_die i j).1) m)).shouldFlip a b =
        m.shouldFlip a b :=
      Map.shouldFlip_congr _ _ (decideInner_width i js m) (decideInner_height i js m)
        (fun p q => decideInner_alive i js m p q) a b
    rw [hsf, decideInner_flip]
    exact or_decide_merge (a ∈ t ∧ b ∈ js) (a = i ∧ b ∈ js) (a ∈ i :: t ∧ b ∈ js)
      (by rw [List.mem_cons, or_and_right]) (m.shouldFlip a b) ((m.map a b).flip)

/-- Pointwise effect of the decision phase on the flip flags. -/
theorem Map.decide_phase_flip (m : Map) (a b : Nat) :
    ((m.decide_phase).map a b).flip =
      ((decide (a < m.width - 1 ∧ b < m.height - 1) && m.shouldFlip a b) ||
        (m.map a b).flip) := by
  unfold Map.decide_phase
  rw [decideOuter_flip]
  simp [List.mem_range]

theorem Map.decide_phase_alive (m : Map) (a b : Nat) :
    ((m.decide_phase).map a b).alive = (m.map a b).alive := by
  unfold Map.decide_phase
  exact decideOuter_alive _ _ m a b

theorem Map.decide_phase_linger (m : Map) (a b : Nat) :
    ((m.decide_phase).map a b).linger = (m.map a b).linger := by
  unfold Map.decide_phase
  exact decideOuter_linger _ _ m a b

@[simp] theorem Map.decide_phase_width (m : Map) :
    (m.decide_phase).width = m.width := decideOuter_width _ _ m

@[simp] theorem Map.decide_phase_height (m : Map) :
    (m.decide_phase).height = m.height := decideOuter_height _ _ m

/-! ### Characterisation of `flip_all` -/

theorem flipCell_alive (m : Map) (x j a b : Nat) :
    ((if (m.map x j).flip then
        m.setCell x j { alive := !(m.map x j).alive, linger := (m.map x j).linger,
                        flip := false }
      else m).map a b).alive =
      (if a = x ∧ b = j ∧ (m.map a b).flip = true then !(m.map a b).alive
       else (m.map a b).alive) := by
  by_cases hab : a = x ∧ b = j
  · obtain ⟨h1, h2⟩ := hab; subst h1; subst h2
    by_cases hf : (m.map a b).flip <;> simp [hf, Map.setCell_map]
  · have h3 : ¬(a = x ∧ b = j ∧ (m.map a b).flip = true) := fun h => hab ⟨h.1, h.2.1⟩
    by_cases hf : (m.map x j).flip <;> simp [hf, Map.setCell_map, hab, h3]

theorem flipCell_flip (m : Map) (x j a b : Nat) :
    ((if (m.map x j).flip then
        m.setCell x j { alive := !(m.map x j).alive, linger := (m.map x j).linger,
                        flip := false }
      else m).map a b).flip =
      (if a = x ∧ b = j then false else (m.map a b).flip) := by
  by_cases hab : a = x ∧ b = j
  · obtain ⟨h1, h2⟩ := hab; subst h1; subst h2
    by_cases hf : (m.map a b).flip <;> simp [hf, Map.setCell_map]
  · by_cases hf : (m.map x j).flip <;> simp [hf, Map.setCell_map, hab]

theorem flipCell_linger (m : Map) (x j a b : Nat) :
    ((if (m.map x j).flip then
        m.setCell x j { alive := !(m.map x j).alive, linger := (m.map x j).linger,
                        flip := false }
      else m).map a b).linger = (m.map a b).linger := by
  by_cases hab : a = x ∧ b = j
  · obtain ⟨h1, h2⟩ := hab; subst h1; subst h2
    by_cases hf : (m.map a b).flip <;> simp [hf, Map.setCell_map]
  · by_cases hf : (m.map x j).flip <;> simp [hf, Map.setCell_map, hab]

theorem flipCell_width (m : Map) (x j : Nat) :
    ((if (m.map x j).flip then
        m.setCell x j { alive := !(m.map x j).alive, linger := (m.map x j).linger,
                        flip := false }
      else m)).width = m.width := by
  split_ifs <;> rfl

theorem flipCell_height (m : Map) (x j : Nat) :
    ((if (m.map x j).flip then
        m.setCell x j { alive := !(m.map x j).alive, linger := (m.map x j).linger,
                        flip := false }
      else m)).height = m.height := by
  split_ifs <;> rfl

theorem flipInner_width (x : Nat) (js : List Nat) : ∀ (m : Map),
    (js.foldl (fun a2 y =>
      if (a2.map x y).flip then
        a2.setCell x y { alive := !(a2.map x y).alive, linger := (a2.map x y).linger,
                         flip := false }
      else a2) m).width = m.width := by
  induction js with
  | nil => intro m; rfl
  | cons j t ih =>
    intro m
    simp only [List.foldl_cons]
    rw [ih]
    exact flipCell_width m x j

theorem flipInner_height (x : Nat) (js : List Nat) : ∀ (m : Map),
    (js.foldl (fun a2 y =>
      if (a2.map x y).flip then
        a2.setCell x y { alive := !(a2.map x y).alive, linger := (a2.map x y).linger,
                         flip := false }
      else a2) m).height = m.height := by
  induction js with
  | nil => intro m; rfl
  | cons j t ih =>
    intro m
    simp only [List.foldl_cons]
    rw [ih]
    exact flipCell_height m x j

theorem flipInner_linger (x : Nat) (js : List Nat) : ∀ (m : Map) (a b : Nat),
    ((js.foldl (fun a2 y =>
      if (a2.map x y).flip then
        a2.setCell x y { alive := !(a2.map x y).alive, linger := (a2.map x y).linger,
                         flip := false }
      else a2) m).map a b).linger = (m.map a b).linger := by
  induction js with
  | nil => intro m a b; rfl
  | cons j t ih =>
    intro m a b
    simp only [List.foldl_cons]
    rw [ih]
    exact flipCell_linger m x j a b

theorem flipInner_alive (x : Nat) (js : List Nat) : ∀ (m : Map) (a b : Nat),
    ((js.foldl (fun a2 y =>
      if (a2.map x y).flip then
        a2.setCell x y { alive := !(a2.map x y).alive, linger := (a2.map x y).linger,
                         flip := false }
      else a2) m).map a b).alive =
      (if a = x ∧ b ∈ js ∧ (m.map a b).flip = true then !(m.map a b).alive
       else (m.map a b).alive) := by
  induction js with
  | nil => intro m a b; simp
  | cons j t ih =>
    intro m a b
    simp only [List.foldl_cons]
    rw [ih, flipCell_alive, flipCell_flip]
    by_cases hax : a = x <;> by_cases hbj : b = j <;> by_cases hbt : b ∈ t <;>
      by_cases hf : (m.map a b).flip = true <;> simp_all [List.mem_cons]

theorem flipInner_flip (x : Nat) (js : List Nat) : ∀ (m : Map) (a b : Nat),
    ((js.foldl (fun a2 y =>
      if (a2.map x y).flip then
        a2.setCell x y { alive := !(a2.map x y).alive, linger := (a2.map x y).linger,
                         flip := false }
      else a2) m).map a b).flip =
      (if a = x ∧ b ∈ js then false else (m.map a b).flip) := by
  induction js with
  | nil => intro m a b; simp
  | cons j t ih =>
    intro m a b
    simp only [List.foldl_cons]
    rw [ih, flipCell_flip]
    by_cases hax : a = x <;> by_cases hbj : b = j <;> by_cases hbt : b ∈ t <;>
      simp_all [List.mem_cons]

theorem flipOuter_width (is js : List Nat) : ∀ (m : Map),
    (is.foldl (fun acc x => js.foldl (fun a2 y =>
      if (a2.map x y).flip then
        a2.setCell x y { alive := !(a2.map x y).alive, linger := (a2.map x y).linger,
                         flip := false }
      else a2) acc) m).width = m.width := by
  induction is with
  | nil => intro m; rfl
  | cons i t ih =>
    intro m
    simp only [List.foldl_cons]
    rw [ih]
    exact flipInner_width i js m

theorem flipOuter_height (is js : List Nat) : ∀ (m : Map),
    (is.foldl (fun acc x => js.foldl (fun a2 y =>
      if (a2.map x y).flip then
        a2.setCell x y { alive := !(a2.map x y).alive, linger := (a2.map x y).linger,
                         flip := false }
      else a2) acc) m).height = m.height := by
  induction is with
  | nil => intro m; rfl
  | cons i t ih =>
    intro m
    simp only [List.foldl_cons]
    rw [ih]
    exact flipInner_height i js m

theorem flipOuter_linger (is js : List Nat) : ∀ (m : Map) (a b : Nat),
    ((is.foldl (fun acc x => js.foldl (fun a2 y =>
      if (a2.map x y).flip then
        a2.setCell x y { alive := !(a2.map x y).alive, linger := (a2.map x y).linger,
                         flip := false }
      else a2) acc) m).map a b).linger = (m.map a b).linger := by
  induction is with
  | nil => intro m a b; rfl
  | cons i t ih =>
    intro m a b
    simp only [List.foldl_cons]
    rw [ih]
    exact flipInner_linger i js m a b

theorem flipOuter_alive (is js : List Nat) : ∀ (m : Map) (a b : Nat),
    ((is.foldl (fun acc x => js.foldl (fun a2 y =>
      if (a2.map x y).flip then
        a2.setCell x y { alive := !(a2.map x y).alive, linger := (a2.map x y).linger,
                         flip := false }
      else a2) acc) m).map a b).alive =
      (if a ∈ is ∧ b ∈ js ∧ (m.map a b).flip = true then !(m.map a b).alive
       else (m.map a b).alive) := by
  induction is with
  | nil => intro m a b; simp
  | cons i t ih =>
    intro m a b
    simp only [List.foldl_cons]
    rw [ih, flipInner_alive, flipInner_flip]
    by_cases hai : a = i <;> by_cases hat : a ∈ t <;> by_cases hbj : b ∈ js <;>
      by_cases hf : (m.map a b).flip = true <;> simp_all [List.mem_cons]

theorem flipOuter_flip (is js : List Nat) : ∀ (m : Map) (a b : Nat),
    ((is.foldl (fun acc x => js.foldl (fun a2 y =>
      if (a2.map x y).flip then
        a2.setCell x y { alive := !(a2.map x y).alive, linger := (a2.map x y).linger,
                         flip := false }
      else a2) acc) m).map a b).flip =
      (if a ∈ is ∧ b ∈ js then false else (m.map a b).flip) := by
  induction is with
  | nil => intro m a b; simp
  | cons i t ih =>
    intro m a b
    simp only [List.foldl_cons]
    rw [ih, flipInner_flip]
    by_cases hai : a = i <;> by_cases hat : a ∈ t <;> by_cases hbj : b ∈ js <;>
      simp_all [List.mem_cons]

theorem Map.flip_all_alive (m : Map) (a b : Nat) :
    ((m.flip_all).map a b).alive =
      (if a < m.width - 1 ∧ b < m.height - 1 ∧ (m.map a b).flip = true
       then !(m.map a b).alive else (m.map a b).alive) := by
  unfold Map.flip_all
  rw [flipOuter_alive]
  simp [List.mem_range]

theorem Map.flip_all_flip (m : Map) (a b : Nat) :
    ((m.flip_all).map a b).flip =
      (if a < m.width - 1 ∧ b < m.height - 1 then false else (m.map a b).flip) := by
  unfold Map.flip_all
  rw [flipOuter_flip]
  simp [List.mem_range]

theorem Map.flip_all_linger (m : Map) (a b : Nat) :
    ((m.flip_all).map a b).linger = (m.map a b).linger := by
  unfold Map.flip_all
  exact flipOuter_linger _ _ m a b

@[simp] theorem Map.flip_all_width (m : Map) :
    (m.flip_all).width = m.width := flipOuter_width _ _ m

@[simp] theorem Map.flip_all_height (m : Map) :
    (m.flip_all).height = m.height := flipOuter_height _ _ m

/-! ### Characterisation of the linger phase of `tick` -/

theorem lingerStep_congr (c1 c2 : Cell) (ha : c1.alive = c2.alive)
    (hl : c1.linger = c2.linger) : lingerStep c1 = lingerStep c2 := by
  unfold lingerStep
  rw [ha, hl]

theorem lingerCell_alive (m : Map) (i j a b : Nat) :
    ((if (m.map i j).alive then m.inc_linger i j else m.dec_linger i j).map a b).alive =
      (m.map a b).alive := by
  split_ifs
  · exact m.inc_linger_map_alive i j a b
  · exact m.dec_linger_map_alive i j a b

theorem lingerCell_flip (m : Map) (i j a b : Nat) :
    ((if (m.map i j).alive then m.inc_linger i j else m.dec_linger i j).map a b).flip =
      (m.map a b).flip := by
  split_ifs
  · exact m.inc_linger_map_flip i j a b
  · exact m.dec_linger_map_flip i j a b

theorem lingerCell_linger (m : Map) (i j a b : Nat) :
    ((if (m.map i j).alive then m.inc_linger i j else m.dec_linger i j).map a b).linger =
      (if a = i ∧ b = j then lingerStep (m.map i j) else (m.map a b).linger) := by
  by_cases hab : a = i ∧ b = j
  · rw [if_pos hab]
    split_ifs with halive
    · rw [m.inc_linger_map_linger i j a b, if_pos hab]
      simp [lingerStep, halive]
    · rw [m.dec_linger_map_linger i j a b, if_pos hab]
      simp [lingerStep, halive]
  · rw [if_neg hab]
    split_ifs with halive
    · rw [m.inc_linger_map_linger i j a b, if_neg hab]
    · rw [m.dec_linger_map_linger i j a b, if_neg hab]

theorem lingerCell_width (m : Map) (i j : Nat) :
    ((if (m.map i j).alive then m.inc_linger i j else m.dec_linger i j)).width =
      m.width := by
  split_ifs <;> simp

theorem lingerCell_height (m : Map) (i j : Nat) :
    ((if (m.map i j).alive then m.inc_linger i j else m.dec_linger i j)).height =
      m.height := by
  split_ifs <;> simp

theorem lingerInner_width (i : Nat) (js : List Nat) : ∀ (m : Map),
    (js.foldl (fun a2 j =>
      if (a2.map i j).alive then a2.inc_linger i j else a2.dec_linger i j) m).width =
      m.width := by
  induction js with
  | nil => intro m; rfl
  | cons j t ih =>
    intro m
    simp only [List.foldl_cons]
    rw [ih]
    exact lingerCell_width m i j

theorem lingerInner_height (i : Nat) (js : List Nat) : ∀ (m : Map),
    (js.foldl (fun a2 j =>
      if (a2.map i j).alive then a2.inc_linger i j else a2.dec_linger i j) m).height =
      m.height := by
  induction js with
  | nil => intro m; rfl
  | cons j t ih =>
    intro m
    simp only [List.foldl_cons]
    rw [ih]
    exact lingerCell_height m i j

theorem lingerInner_alive (i : Nat) (js : List Nat) : ∀ (m : Map) (a b : Nat),
    ((js.foldl (fun a2 j =>
      if (a2.map i j).alive then a2.inc_linger i j else a2.dec_linger i j) m).map a b).alive =
      (m.map a b).alive := by
  induction js with
  | nil => intro m a b; rfl
  | cons j t ih =>
    intro m a b
    simp only [List.foldl_cons]
    rw [ih]
    exact lingerCell_alive m i j a b

theorem lingerInner_flip (i : Nat) (js : List Nat) : ∀ (m : Map) (a b : Nat),
    ((js.foldl (fun a2 j =>
      if (a2.map i j).alive then a2.inc_linger i j else a2.dec_linger i j) m).map a b).flip =
      (m.map a b).flip := by
  induction js with
  | nil => intro m a b; rfl
  | cons j t ih =>
    intro m a b
    simp only [List.foldl_cons]
    rw [ih]
    exact lingerCell_flip m i j a b

theorem lingerInner_linger (i : Nat) : ∀ (js : List Nat), js.Nodup →
    ∀ (m : Map) (a b : Nat),
    ((js.foldl (fun a2 j =>
      if (a2.map i j).alive then a2.inc_linger i j else a2.dec_linger i j) m).map a b).linger =
      (if a = i ∧ b ∈ js then lingerStep (m.map a b) else (m.map a b).linger) := by
  intro js
  induction js with
  | nil => intro _ m a b; simp
  | cons j t ih =>
    intro hnd m a b
    have hjt : j ∉ t := (List.nodup_cons.mp hnd).1
    have hndt : t.Nodup := (List.nodup_cons.mp hnd).2
    simp only [List.foldl_cons]
    rw [ih hndt]
    have hstep_alive := lingerCell_alive m i j a b
    have hstep_linger := lingerCell_linger m i j a b
    by_cases hai : a = i
    · subst hai
      by_cases hbj : b = j
      · subst hbj
        simp [hjt, hstep_linger]
      · have hMl : ((if (m.map a j).alive then m.inc_linger a j else
            m.dec_linger a j).map a b).linger = (m.map a b).linger := by
          rw [hstep_linger]
          simp [hbj]
        have hMa : ((if (m.map a j).alive then m.inc_linger a j else
            m.dec_linger a j).map a b).alive = (m.map a b).alive := hstep_alive
        have hls : lingerStep ((if (m.map a j).alive then m.inc_linger a j else
            m.dec_linger a j).map a b) = lingerStep (m.map a b) :=
          lingerStep_congr _ _ hMa hMl
        simp [List.mem_cons, hbj, hls, hMl]
    · simp [hai, hstep_linger]

theorem lingerOuter_width (is js : List Nat) : ∀ (m : Map),
    (is.foldl (fun acc i => js.foldl (fun a2 j =>
      if (a2.map i j).alive then a2.inc_linger i j else a2.dec_linger i j) acc) m).width =
      m.width := by
  induction is with
  | nil => intro m; rfl
  | cons i t ih =>
    intro m
    simp only [List.foldl_cons]
    rw [ih]
    exact lingerInner_width i js m

theorem lingerOuter_height (is js : List Nat) : ∀ (m : Map),
    (is.foldl (fun acc i => js.foldl (fun a2 j =>
      if (a2.map i j).alive then a2.inc_linger i j else a2.dec_linger i j) acc) m).height =
      m.height := by
  induction is with
  | nil => intro m; rfl
  | cons i t ih =>
    intro m
    simp only [List.foldl_cons]
    rw [ih]
    exact lingerInner_height i js m

theorem lingerOuter_alive (is js : List Nat) : ∀ (m : Map) (a b : Nat),
    ((is.foldl (fun acc i => js.foldl (fun a2 j =>
      if (a2.map i j).alive then a2.inc_linger i j else a2.dec_linger i j) acc) m).map a b).alive =
      (m.map a b).alive := by
  induction is with
  | nil => intro m a b; rfl
  | cons i t ih =>
    intro m a b
    simp only [List.foldl_cons]
    rw [ih]
    exact lingerInner_alive i js m a b

theorem lingerOuter_flip (is js : List Nat) : ∀ (m : Map) (a b : Nat),
    ((is.foldl (fun acc i => js.foldl (fun a2 j =>
      if (a2.map i j).alive then a2.inc_linger i j else a2.dec_linger i j) acc) m).map a b).flip =
      (m.map a b).flip := by
  induction is with
  | nil => intro m a b; rfl
  | cons i t ih =>
    intro m a b
    simp only [List.foldl_cons]
    rw [ih]
    exact lingerInner_flip i js m a b

theorem lingerOuter_linger (js : List Nat) (hjs : js.Nodup) : ∀ (is : List Nat),
    is.Nodup → ∀ (m : Map) (a b : Nat),
    ((is.foldl (fun acc i => js.foldl (fun a2 j =>
      if (a2.map i j).alive then a2.inc_linger i j else a2.dec_linger i j) acc) m).map a b).linger =
      (if a ∈ is ∧ b ∈ js then lingerStep (m.map a b) else (m.map a b).linger) := by
  intro is
  induction is with
  | nil => intro _ m a b; simp
  | cons i t ih =>
    intro hnd m a b
    have hit : i ∉ t := (List.nodup_cons.mp hnd).1
    have hndt : t.Nodup := (List.nodup_cons.mp hnd).2
    simp only [List.foldl_cons]
    rw [ih hndt]
    have hstep_alive := lingerInner_alive i js m a b
    have hstep_linger := lingerInner_linger i js hjs m a b
    by_cases hai : a = i
    · subst hai
      simp [hit, hstep_linger]
    · have hMl : ((js.foldl (fun a2 j =>
          if (a2.map i j).alive then a2.inc_linger i j else a2.dec_linger i j) m).map a b).linger =
            (m.map a b).linger := by
        rw [hstep_linger]
        simp [hai]
      have hls : lingerStep ((js.foldl (fun a2 j =>
          if (a2.map i j).alive then a2.inc_linger i j else a2.dec_linger i j) m).map a b) =
            lingerStep (m.map a b) :=
        lingerStep_congr _ _ hstep_alive hMl
      simp [List.mem_cons, hai, hls, hMl]

theorem Map.linger_phase_alive (m : Map) (a b : Nat) :
    ((m.linger_phase).map a b).alive = (m.map a b).alive := by
  unfold Map.linger_phase
  exact lingerOuter_alive _ _ m a b

theorem Map.linger_phase_flip (m : Map) (a b : Nat) :
    ((m.linger_phase).map a b).flip = (m.map a b).flip := by
  unfold Map.linger_phase
  exact lingerOuter_flip _ _ m a b

theorem Map.linger_phase_linger (m : Map) (a b : Nat) :
    ((m.linger_phase).map a b).linger =
      (if a < m.width - 1 ∧ b < m.height - 1 then lingerStep (m.map a b)
       else (m.map a b).linger) := by
  unfold Map.linger_phase
  rw [lingerOuter_linger _ (List.nodup_range _) _ (List.nodup_range _)]
  simp [List.mem_range]

@[simp] theorem Map.linger_phase_width (m : Map) :
    (m.linger_phase).width = m.width := lingerOuter_width _ _ m

@[simp] theorem Map.linger_phase_height (m : Map) :
    (m.linger_phase).height = m.height := lingerOuter_height _ _ m

/-! ### Pointwise characterisation of `tick` -/

@[simp] theorem Map.tick_width (m : Map) : (m.tick).width = m.width := by
  unfold Map.tick
  simp

@[simp] theorem Map.tick_height (m : Map) : (m.tick).height = m.height := by
  unfold Map.tick
  simp

/-- The alive flag `tick` produces at `(a, b)`: cells of the processed region
`[0, width-1) × [0, height-1)` flip exactly when the rule (or a stale flip
flag) demands it; cells of the last column or last row are never touched. -/
theorem Map.tick_alive (m : Map) (a b : Nat) :
    ((m.tick).map a b).alive =
      (if a < m.width - 1 ∧ b < m.height - 1 ∧
          (m.shouldFlip a b || (m.map a b).flip) = true
       then !(m.map a b).alive else (m.map a b).alive) := by
  unfold Map.tick
  rw [Map.linger_phase_alive, Map.flip_all_alive, Map.decide_phase_flip,
    Map.decide_phase_alive, Map.decide_phase_width, Map.decide_phase_height]
  by_cases hr : a < m.width - 1 ∧ b < m.height - 1
  · simp [hr]
  · have h1 : ¬(a < m.width - 1 ∧ b < m.height - 1 ∧ (m.map a b).flip = true) :=
      fun h => hr ⟨h.1, h.2.1⟩
    have h2 : ¬(a < m.width - 1 ∧ b < m.height - 1 ∧
        (m.shouldFlip a b = true ∨ (m.map a b).flip = true)) := fun h => hr ⟨h.1, h.2.1⟩
    simp [hr, h1, h2]

/-- The flip flag `tick` produces at `(a, b)`. -/
theorem Map.tick_flip (m : Map) (a b : Nat) :
    ((m.tick).map a b).flip =
      (if a < m.width - 1 ∧ b < m.height - 1 then false else (m.map a b).flip) := by
  unfold Map.tick
  rw [Map.linger_phase_flip, Map.flip_all_flip, Map.decide_phase_flip,
    Map.decide_phase_width, Map.decide_phase_height]
  by_cases hr : a < m.width - 1 ∧ b < m.height - 1
  · simp [hr]
  · simp [hr]

/-- The linger counter `tick` produces at `(a, b)`: the linger update is
applied to the post-`flip_all` cell, whose linger equals the prior one. -/
theorem Map.tick_linger (m : Map) (a b : Nat) :
    ((m.tick).map a b).linger =
      (if a < m.width - 1 ∧ b < m.height - 1
       then lingerStep ((m.decide_phase.flip_all).map a b)
       else (m.map a b).linger) := by
  unfold Map.tick
  rw [Map.linger_phase_linger]
  rw [Map.flip_all_width, Map.flip_all_height, Map.decide_phase_width,
    Map.decide_phase_height]
  by_cases hr : a < m.width - 1 ∧ b < m.height - 1
  · simp [hr]
  · simp [hr, Map.flip_all_linger, Map.decide_phase_linger]

/-! ### `init_noise` touches only alive flags -/

theorem noiseCell_linger (noiseAlive : Nat → Nat → Bool) (m : Map) (x j a b : Nat) :
    ((if noiseAlive x j then m.setCell x j { m.map x j with alive := true }
      else m).map a b).linger = (m.map a b).linger := by
  by_cases hab : a = x ∧ b = j
  · obtain ⟨h1, h2⟩ := hab; subst h1; subst h2
    split_ifs <;> simp [Map.setCell_map]
  · split_ifs <;> simp [Map.setCell_map, hab]

theorem noiseCell_flip (noiseAlive : Nat → Nat → Bool) (m : Map) (x j a b : Nat) :
    ((if noiseAlive x j then m.setCell x j { m.map x j with alive := true }
      else m).map a b).flip = (m.map a b).flip := by
  by_cases hab : a = x ∧ b = j
  · obtain ⟨h1, h2⟩ := hab; subst h1; subst h2
    split_ifs <;> simp [Map.setCell_map]
  · split_ifs <;> simp [Map.setCell_map, hab]

theorem noiseInner_linger (noiseAlive : Nat → Nat → Bool) (x : Nat) (js : List Nat) :
    ∀ (m : Map) (a b : Nat),
    ((js.foldl (fun a2 y =>
      if noiseAlive x y then a2.setCell x y { a2.map x y with alive := true }
      else a2) m).map a b).linger = (m.map a b).linger := by
  induction js with
  | nil => intro m a b; rfl
  | cons j t ih =>
    intro m a b
    simp only [List.foldl_cons]
    rw [ih]
    exact noiseCell_linger noiseAlive m x j a b

theorem noiseInner_flip (noiseAlive : Nat → Nat → Bool) (x : Nat) (js : List Nat) :
    ∀ (m : Map) (a b : Nat),
    ((js.foldl (fun a2 y =>
      if noiseAlive x y then a2.setCell x y { a2.map x y with alive := true }
      else a2) m).map a b).flip = (m.map a b).flip := by
  induction js with
  | nil => intro m a b; rfl
  | cons j t ih =>
    intro m a b
    simp only [List.foldl_cons]
    rw [ih]
    exact noiseCell_flip noiseAlive m x j a b

theorem Map.init_noise_linger (noiseAlive : Nat → Nat → Bool) (m : Map) (a b : Nat) :
    ((m.init_noise noiseAlive).map a b).linger = (m.map a b).linger := by
  unfold Map.init_noise
  generalize List.range (m.width - 1) = is
  generalize List.range (m.height - 1) = js
  induction is generalizing m with
  | nil => rfl
  | cons i t ih =>
    simp only [List.foldl_cons]
    rw [ih]
    exact noiseInner_linger noiseAlive i js m a b

theorem Map.init_noise_flip (noiseAlive : Nat → Nat → Bool) (m : Map) (a b : Nat) :
    ((m.init_noise noiseAlive).map a b).flip = (m.map a b).flip := by
  unfold Map.init_noise
  generalize List.range (m.width - 1) = is
  generalize List.range (m.height - 1) = js
  induction is generalizing m with
  | nil => rfl
  | cons i t ih =>
    simp only [List.foldl_cons]
    rw [ih]
    exact noiseInner_flip noiseAlive i js m a b

/-! ### The specification's Moore-neighbourhood count, and `live_neighbours` -/

/-- The count the spec describes: alive cells among the in-grid positions at
Chebyshev distance exactly 1 from `(x, y)` — the Moore neighbourhood of
`(x, y)` without `(x, y)` itself.  Positions outside the grid contribute
nothing, and `Nat.dist` (absolute difference) rules out any wraparound to the
opposite edge. -/
def mooreCount (m : Map) (x y : Nat) : Nat :=
  ((Finset.range m.width ×ˢ Finset.range m.height).filter
    (fun p => p ≠ (x, y) ∧ Nat.dist p.1 x ≤ 1 ∧ Nat.dist p.2 y ≤ 1 ∧
      (m.map p.1 p.2).alive = true)).card

theorem foldl_skip_count (m : Map) (x y i : Nat) : ∀ (l : List Nat) (c : Nat),
    (l.foldl (fun c2 j =>
      if i = x ∧ j = y then c2
      else if (m.map i j).alive then c2 + 1 else c2) c) =
      c + l.countP (fun j => !decide (i = x ∧ j = y) && (m.map i j).alive) := by
  intro l
  induction l with
  | nil => intro c; simp
  | cons j t ih =>
    intro c
    simp only [List.foldl_cons, List.countP_cons]
    rw [ih]
    by_cases h1 : i = x ∧ j = y
    · simp [h1]
    · by_cases h2 : (m.map i j).alive <;> simp [h1, h2] <;> try omega

theorem countP_range_sum (p : Nat → Bool) : ∀ (n a : Nat),
    (List.range' a n).countP p = ∑ j ∈ Finset.Ico a (a + n), (if p j then 1 else 0) := by
  intro n
  induction n with
  | zero => intro a; simp
  | succ k ih =>
    intro a
    rw [List.range'_succ, List.countP_cons,
      Finset.sum_eq_sum_Ico_succ_bot (by omega : a < a + (k + 1))]
    have : a + (k + 1) = (a + 1) + k := by omega
    rw [this, ih (a + 1)]
    by_cases hp : p a <;> simp [hp] <;> try omega

theorem sum_map_range' (g : Nat → Nat) : ∀ (n a : Nat),
    ((List.range' a n).map g).sum = ∑ i ∈ Finset.Ico a (a + n), g i := by
  intro n
  induction n with
  | zero => intro a; simp
  | succ k ih =>
    intro a
    rw [List.range'_succ, List.map_cons, List.sum_cons,
      Finset.sum_eq_sum_Ico_succ_bot (by omega : a < a + (k + 1))]
    have : a + (k + 1) = (a + 1) + k := by omega
    rw [this, ih (a + 1)]

theorem foldl_outer_count (m : Map) (x y : Nat) (js : List Nat) : ∀ (l : List Nat) (c : Nat),
    (l.foldl (fun count i => js.foldl (fun c2 j =>
      if i = x ∧ j = y then c2
      else if (m.map i j).alive then c2 + 1 else c2) count) c) =
      c + (l.map (fun i =>
        js.countP (fun j => !decide (i = x ∧ j = y) && (m.map i j).alive))).sum := by
  intro l
  induction l with
  | nil => intro c; simp
  | cons i t ih =>
    intro c
    simp only [List.foldl_cons, List.map_cons, List.sum_cons]
    rw [ih, foldl_skip_count]
    omega

/-- `live_neighbours` as a double `Finset` sum over the clamped index window. -/
theorem Map.live_neighbours_sum (m : Map) (x y : Nat) :
    m.live_neighbours x y =
      ∑ i ∈ Finset.Ico (if x = 0 then 0 else x - 1)
          ((if x = 0 then 0 else x - 1) +
            ((if x = m.width - 1 then m.width - 1 else x + 1) + 1 -
              (if x = 0 then 0 else x - 1))),
        ∑ j ∈ Finset.Ico (if y = 0 then 0 else y - 1)
          ((if y = 0 then 0 else y - 1) +
            ((if y = m.height - 1 then m.height - 1 else y + 1) + 1 -
              (if y = 0 then 0 else y - 1))),
          (if (!decide (i = x ∧ j = y) && (m.map i j).alive) then 1 else 0) := by
  unfold Map.live_neighbours
  dsimp only
  rw [foldl_outer_count, sum_map_range']
  rw [Nat.zero_add]
  refine Finset.sum_congr rfl (fun i _ => ?_)
  rw [countP_range_sum]

/-- For an in-bounds cell, the fold in `live_neighbours` computes exactly the
spec's clamped Moore-neighbourhood count. -/
theorem Map.live_neighbours_eq_mooreCount (m : Map) (x y : Nat)
    (hx : x < m.width) (hy : y < m.height) :
    m.live_neighbours x y = mooreCount m x y := by
  have hlx : (if x = 0 then 0 else x - 1) = x - 1 := by
    rcases eq_or_ne x 0 with h | h <;> simp [h]
  have hly : (if y = 0 then 0 else y - 1) = y - 1 := by
    rcases eq_or_ne y 0 with h | h <;> simp [h]
  have hbx : (x - 1) + ((if x = m.width - 1 then m.width - 1 else x + 1) + 1 - (x - 1)) =
      (if x = m.width - 1 then m.width - 1 else x + 1) + 1 := by
    split_ifs <;> omega
  have hby : (y - 1) + ((if y = m.height - 1 then m.height - 1 else y + 1) + 1 - (y - 1)) =
      (if y = m.height - 1 then m.height - 1 else y + 1) + 1 := by
    split_ifs <;> omega
  rw [Map.live_neighbours_sum, hlx, hly, hbx, hby]
  have key : (Finset.range m.width ×ˢ Finset.range m.height).filter
        (fun p => p ≠ (x, y) ∧ Nat.dist p.1 x ≤ 1 ∧ Nat.dist p.2 y ≤ 1 ∧
          (m.map p.1 p.2).alive = true) =
      (Finset.Ico (x - 1) ((if x = m.width - 1 then m.width - 1 else x + 1) + 1) ×ˢ
        Finset.Ico (y - 1) ((if y = m.height - 1 then m.height - 1 else y + 1) + 1)).filter
        (fun p => ¬(p.1 = x ∧ p.2 = y) ∧ (m.map p.1 p.2).alive = true) := by
    ext ⟨i, j⟩
    simp only [Finset.mem_filter, Finset.mem_product, Finset.mem_Ico, Finset.mem_range,
      ne_eq, Prod.mk.injEq]
    have harith : ((i < m.width ∧ j < m.height) ∧ Nat.dist i x ≤ 1 ∧ Nat.dist j y ≤ 1) ↔
        ((x - 1 ≤ i ∧ i < (if x = m.width - 1 then m.width - 1 else x + 1) + 1) ∧
         (y - 1 ≤ j ∧ j < (if y = m.height - 1 then m.height - 1 else y + 1) + 1)) := by
      unfold Nat.dist
      split_ifs <;> omega
    constructor
    · rintro ⟨⟨hi, hj⟩, hc, hd1, hd2, hal⟩
      exact ⟨harith.mp ⟨⟨hi, hj⟩, hd1, hd2⟩, hc, hal⟩
    · rintro ⟨⟨hi, hj⟩, hc, hal⟩
      obtain ⟨⟨hiw, hjh⟩, hd1, hd2⟩ := harith.mpr ⟨hi, hj⟩
      exact ⟨⟨hiw, hjh⟩, hc, hd1, hd2, hal⟩
  unfold mooreCount
  rw [key, Finset.card_filter, Finset.sum_product _ _ _]
  refine Finset.sum_congr rfl (fun i _ => Finset.sum_congr rfl (fun j _ => ?_))
  by_cases h1 : i = x ∧ j = y <;> by_cases h2 : (m.map i j).alive <;> simp [h1, h2]

/-! ### Helper lemmas for `toggle` and concrete grids -/

attribute [ext] Map

theorem lingerStep_le (c : Cell) (h : c.linger ≤ 9) : lingerStep c ≤ 9 := by
  unfold lingerStep
  split_ifs <;> omega

/-- Successful `toggle` characterised: the bounds held and the result is the
single-cell alive inversion. -/
theorem Map.toggle_some (m : Map) (x y : Int) (m2 : Map)
    (h : m.toggle x y = some m2) :
    m2 = m.setCell (usizeOfI32 x) (usizeOfI32 y)
      { m.map (usizeOfI32 x) (usizeOfI32 y) with
        alive := !(m.map (usizeOfI32 x) (usizeOfI32 y)).alive } ∧
    usizeOfI32 x < MAP_WIDTH ∧ usizeOfI32 y < MAP_HEIGHT := by
  unfold Map.toggle at h
  dsimp only at h
  split_ifs at h with hb
  injection h with h2
  exact ⟨h2.symm, hb.1, hb.2⟩

theorem usizeOfI32_eq_toNat (x : Int) (h1 : 0 ≤ x) (h2 : x < 2 ^ 64) :
    usizeOfI32 x = x.toNat := by
  unfold usizeOfI32
  rw [Int.emod_eq_of_lt h1 h2]

/-- The spec's transition rule as a pure function of the prior alive flag and
the prior live-neighbour count: survive on 2 or 3, birth on exactly 3. -/
def specRule (alive : Bool) (n : Nat) : Bool :=
  if alive then decide (n = 2 ∨ n = 3) else decide (n = 3)

/-- The naive reference implementation the spec describes: every cell's next
alive flag is evaluated against the immutable prior snapshot; linger and flip
are irrelevant to the comparison and kept. -/
def Map.naiveStep (m : Map) : Map :=
  { m with map := fun x y =>
      { m.map x y with alive := specRule (m.map x y).alive (m.live_neighbours x y) } }

/-- A concrete 300 × 80 grid: three live cells adjacent to the last-column
cell `(299, 0)`, which therefore has exactly three live neighbours. -/
def edgeMap : Map := { Map.new with map := fun x y =>
  { alive := decide ((x = 298 ∧ y = 0) ∨ (x = 298 ∧ y = 1) ∨ (x = 299 ∧ y = 1)),
    linger := 0, flip := false } }

/-- A small concrete grid used to instantiate universally quantified claims. -/
def smallMap : Map where
  map := fun x y =>
    { alive := decide ((x = 1 ∧ y = 1) ∨ (x = 2 ∧ y = 2) ∨ (x = 3 ∧ y = 1)),
      linger := 0, flip := false }
  height := 4
  width := 5
  o_x := 0
  o_y := 0

/-- `Map.new` with every linger counter set to 7: same alive and flip flags,
different brightness state. -/
def lingerVariant : Map :=
  { Map.new with map := fun _ _ => { alive := false, linger := 7, flip := false } }

/-! ### The claims -/

/-- Claim C1 (refuted; the loops in `tick` stop one short of the last column
and row): on a 300 × 80 grid the dead cell `(299, 0)` has exactly three live
neighbours, so the standard rule demands its birth, yet `tick` leaves it
dead. -/
theorem claim_C1_edge_cell_violates_rule :
    (edgeMap.map 299 0).alive = false ∧
    edgeMap.live_neighbours 299 0 = 3 ∧
    ((edgeMap.tick).map 299 0).alive = false := by
  refine ⟨rfl, by decide, ?_⟩
  rw [Map.tick_alive]
  have hno : ¬(299 < edgeMap.width - 1 ∧ 0 < edgeMap.height - 1 ∧
      (edgeMap.shouldFlip 299 0 || (edgeMap.map 299 0).flip) = true) := by
    intro h
    exact absurd h.1 (by decide)
  rw [if_neg hno]
  rfl

/-- Claim C2: for every in-bounds cell, `live_neighbours` returns exactly the
number of alive cells among the in-grid Moore neighbours of `(x, y)` —
the at most 8 grid-adjacent positions, the cell itself excluded, clamped at
the edges with no wraparound. -/
theorem claim_C2_live_neighbours_moore (m : Map) (x y : Nat)
    (hx : x < m.width) (hy : y < m.height) :
    m.live_neighbours x y = mooreCount m x y :=
  Map.live_neighbours_eq_mooreCount m x y hx hy

/-- Witness for C2 at the cell `(2, 1)` of a concrete 5 × 4 grid. -/
theorem claim_C2_witness :
    ((2 < smallMap.width ∧ 1 < smallMap.height) ∧
      smallMap.live_neighbours 2 1 = mooreCount smallMap 2 1) :=
  ⟨⟨by decide, by decide⟩,
    claim_C2_live_neighbours_moore smallMap 2 1 (by decide) (by decide)⟩

/-- Claim C3: `live_die` returns `true` exactly when the cell must change
under the Conway rule (an alive cell with fewer than 2 or more than 3 live
neighbours, or a dead cell with exactly 3); precisely then it sets the flip
flag (leaving an already-set flag set), and it never changes any alive
flag (nor any linger counter). -/
theorem claim_C3_live_die_rule (m : Map) (x y : Nat) :
    ((m.live_die x y).2 = true ↔
      (((m.map x y).alive = true ∧
          (m.live_neighbours x y < 2 ∨ m.live_neighbours x y > 3)) ∨
        ((m.map x y).alive = false ∧ m.live_neighbours x y = 3))) ∧
    ((m.live_die x y).1.map x y).flip = ((m.live_die x y).2 || (m.map x y).flip) ∧
    (∀ a b, ¬(a = x ∧ b = y) →
      ((m.live_die x y).1.map a b).flip = (m.map a b).flip) ∧
    (∀ a b, ((m.live_die x y).1.map a b).alive = (m.map a b).alive) ∧
    (∀ a b, ((m.live_die x y).1.map a b).linger = (m.map a b).linger) := by
  refine ⟨?_, ?_, ?_, fun a b => m.live_die_map_alive x y a b,
    fun a b => m.live_die_map_linger x y a b⟩
  · rw [Map.live_die_snd]
    unfold Map.shouldFlip
    rcases hal : (m.map x y).alive with _ | _
    · simp [hal]
    · simp [hal]
      tauto
  · rw [Map.live_die_map_flip, Map.live_die_snd]
    simp
  · intro a b hab
    rw [Map.live_die_map_flip]
    simp [hab]

/-- Claim C4 (refuted; same off-by-one as C1): the alive flags `tick`
produces are not those of the spec's naive reference implementation — at the
grid `edgeMap` the reference births cell `(299, 0)` while `tick` leaves it
dead. -/
theorem claim_C4_tick_differs_from_reference :
    ((edgeMap.naiveStep).map 299 0).alive = true ∧
    ((edgeMap.tick).map 299 0).alive = false := by
  constructor
  · decide
  · rw [Map.tick_alive]
    have hno : ¬(299 < edgeMap.width - 1 ∧ 0 < edgeMap.height - 1 ∧
        (edgeMap.shouldFlip 299 0 || (edgeMap.map 299 0).flip) = true) := by
      intro h
      exact absurd h.1 (by decide)
    rw [if_neg hno]
    rfl

/-- Claim C5: `tick` is deterministic — it is a pure function of the prior
grid state, so equal prior states yield equal next states. -/
theorem claim_C5_tick_deterministic (m1 m2 : Map) (h : m1 = m2) :
    m1.tick = m2.tick := by
  rw [h]

/-- Witness for C5 at the concrete state `Map.new`. -/
theorem claim_C5_witness :
    (Map.new = Map.new) ∧ Map.new.tick = Map.new.tick :=
  ⟨rfl, claim_C5_tick_deterministic Map.new Map.new rfl⟩

/-- Claim C6: every linger counter is 0 in a newly constructed `Map`, and
each operation preserves the bound `linger ≤ 9` at every cell (`0 ≤ linger`
holds inherently, the counter being unsigned). -/
theorem claim_C6_linger_bounds :
    (∀ x y, (Map.new.map x y).linger = 0) ∧
    (∀ (m : Map), (∀ x y, (m.map x y).linger ≤ 9) →
      (∀ noiseAlive x y, ((m.init_noise noiseAlive).map x y).linger ≤ 9) ∧
      (∀ xi yi x y, ((m.inc_linger xi yi).map x y).linger ≤ 9) ∧
      (∀ xi yi x y, ((m.dec_linger xi yi).map x y).linger ≤ 9) ∧
      (∀ xi yi m2, m.toggle xi yi = some m2 → ∀ x y, (m2.map x y).linger ≤ 9) ∧
      (∀ x y, ((m.tick).map x y).linger ≤ 9)) := by
  constructor
  · intro x y; rfl
  · intro m h
    refine ⟨?_, ?_, ?_, ?_, ?_⟩
    · intro noiseAlive x y
      rw [Map.init_noise_linger]
      exact h x y
    · intro xi yi x y
      rw [Map.inc_linger_map_linger]
      have h2 := h xi yi
      have h3 := h x y
      split_ifs <;> omega
    · intro xi yi x y
      rw [Map.dec_linger_map_linger]
      have h2 := h xi yi
      have h3 := h x y
      split_ifs <;> omega
    · intro xi yi m2 hsome x y
      obtain ⟨heq, _hx, _hy⟩ := Map.toggle_some m xi yi m2 hsome
      subst heq
      rw [Map.setCell_map]
      split_ifs
      · exact h _ _
      · exact h _ _
    · intro x y
      rw [Map.tick_linger]
      split_ifs with h1
      · apply lingerStep_le
        rw [Map.flip_all_linger, Map.decide_phase_linger]
        exact h x y
      · exact h x y

/-- Witness for C6 at the concrete state `Map.new`. -/
theorem claim_C6_witness :
    ((∀ x y, (Map.new.map x y).linger ≤ 9) ∧
      (∀ x y, ((Map.new.tick).map x y).linger ≤ 9)) :=
  ⟨fun _ _ => Nat.zero_le 9,
    (claim_C6_linger_bounds.2 Map.new (fun _ _ => Nat.zero_le 9)).2.2.2.2⟩

/-- Claim C7: linger counters never influence the simulation — two states
with the same dimensions whose alive and flip flags agree cell-for-cell but
whose linger values differ arbitrarily produce, under `tick`, alive flags
that agree cell-for-cell. -/
theorem claim_C7_linger_noninterference (m1 m2 : Map)
    (hw : m1.width = m2.width) (hh : m1.height = m2.height)
    (ha : ∀ a b, (m1.map a b).alive = (m2.map a b).alive)
    (hf : ∀ a b, (m1.map a b).flip = (m2.map a b).flip) :
    ∀ a b, ((m1.tick).map a b).alive = ((m2.tick).map a b).alive := by
  intro a b
  rw [Map.tick_alive, Map.tick_alive, hw, hh, ha a b, hf a b,
    Map.shouldFlip_congr m1 m2 hw hh ha a b]

/-- Witness for C7: `Map.new` against the same grid with every linger set to
7. -/
theorem claim_C7_witness :
    ((Map.new.width = lingerVariant.width ∧ Map.new.height = lingerVariant.height ∧
      (∀ a b, (Map.new.map a b).alive = (lingerVariant.map a b).alive) ∧
      (∀ a b, (Map.new.map a b).flip = (lingerVariant.map a b).flip)) ∧
     (∀ a b, ((Map.new.tick).map a b).alive = ((lingerVariant.tick).map a b).alive)) :=
  ⟨⟨rfl, rfl, fun _ _ => rfl, fun _ _ => rfl⟩,
    claim_C7_linger_noninterference Map.new lingerVariant rfl rfl
      (fun _ _ => rfl) (fun _ _ => rfl)⟩

/-- Claim C8: the unguarded indexing in `toggle` succeeds exactly when the
`i32` coordinates satisfy `0 ≤ x < 300 ∧ 0 ≤ y < 80`; any other coordinate
(negative values wrap to huge `usize` indices) makes the lookup fail. -/
theorem claim_C8_toggle_bounds (m : Map) (x y : Int)
    (hx1 : -(2 ^ 31) ≤ x) (hx2 : x < 2 ^ 31)
    (hy1 : -(2 ^ 31) ≤ y) (hy2 : y < 2 ^ 31) :
    ((m.toggle x y).isSome = true ↔
      (0 ≤ x ∧ x < (MAP_WIDTH : Int) ∧ 0 ≤ y ∧ y < (MAP_HEIGHT : Int))) := by
  unfold Map.toggle usizeOfI32 MAP_WIDTH MAP_HEIGHT
  dsimp only
  split_ifs with hb
  · simp only [Option.isSome_some]
    constructor
    · intro _
      omega
    · intro _
      trivial
  · simp only [Option.isSome_none]
    constructor
    · intro hfalse
      simp at hfalse
    · intro hq
      exfalso
      apply hb
      omega

/-- Witness for C8 at `Map.new` with the out-of-range coordinate pair
`(5, 700)`. -/
theorem claim_C8_witness :
    ((-(2 ^ 31) ≤ (5 : Int) ∧ (5 : Int) < 2 ^ 31 ∧
      -(2 ^ 31) ≤ (700 : Int) ∧ (700 : Int) < 2 ^ 31) ∧
     ((Map.new.toggle 5 700).isSome = true ↔
       (0 ≤ (5 : Int) ∧ (5 : Int) < (MAP_WIDTH : Int) ∧
        0 ≤ (700 : Int) ∧ (700 : Int) < (MAP_HEIGHT : Int)))) :=
  ⟨⟨by norm_num, by norm_num, by norm_num, by norm_num⟩,
    claim_C8_toggle_bounds Map.new 5 700 (by norm_num) (by norm_num)
      (by norm_num) (by norm_num)⟩

theorem Map.toggle_twice_aux (m : Map) (i j : Nat) :
    (m.setCell i j { m.map i j with alive := !(m.map i j).alive }).setCell i j
      { (m.setCell i j { m.map i j with alive := !(m.map i j).alive }).map i j with
        alive :=
          !((m.setCell i j { m.map i j with alive := !(m.map i j).alive }).map i j).alive } =
      m := by
  have hcell : ((m.setCell i j { m.map i j with alive := !(m.map i j).alive }).map i j) =
      { m.map i j with alive := !(m.map i j).alive } := by
    simp [Map.setCell_map]
  apply Map.ext
  · funext a b
    by_cases hab : a = i ∧ b = j
    · obtain ⟨h1, h2⟩ := hab; subst h1; subst h2
      rw [Map.setCell_map, if_pos ⟨rfl, rfl⟩, hcell]
      show Cell.mk (!(!(m.map a b).alive)) (m.map a b).linger (m.map a b).flip = m.map a b
      rw [Bool.not_not]
    · rw [Map.setCell_map, if_neg hab, Map.setCell_map, if_neg hab]
  · rfl
  · rfl
  · rfl
  · rfl

/-- Claim C9: at an in-bounds coordinate, `toggle` succeeds and inverts
exactly that cell's alive flag, leaving its linger and flip fields and every
other cell unchanged; toggling the same coordinate again restores the
original grid state. -/
theorem claim_C9_toggle_involution (m : Map) (x y : Int)
    (hx1 : 0 ≤ x) (hx2 : x < (MAP_WIDTH : Int))
    (hy1 : 0 ≤ y) (hy2 : y < (MAP_HEIGHT : Int)) :
    ∃ m1, m.toggle x y = some m1 ∧
      (m1.map x.toNat y.toNat).alive = !(m.map x.toNat y.toNat).alive ∧
      (m1.map x.toNat y.toNat).linger = (m.map x.toNat y.toNat).linger ∧
      (m1.map x.toNat y.toNat).flip = (m.map x.toNat y.toNat).flip ∧
      (∀ a b, ¬(a = x.toNat ∧ b = y.toNat) → m1.map a b = m.map a b) ∧
      m1.width = m.width ∧ m1.height = m.height ∧
      m1.toggle x y = some m := by
  have hux : usizeOfI32 x = x.toNat := by
    apply usizeOfI32_eq_toNat x hx1
    unfold MAP_WIDTH at hx2
    omega
  have huy : usizeOfI32 y = y.toNat := by
    apply usizeOfI32_eq_toNat y hy1
    unfold MAP_HEIGHT at hy2
    omega
  have hxb : x.toNat < MAP_WIDTH := by
    unfold MAP_WIDTH at hx2 ⊢
    omega
  have hyb : y.toNat < MAP_HEIGHT := by
    unfold MAP_HEIGHT at hy2 ⊢
    omega
  refine ⟨m.setCell x.toNat y.toNat
      { m.map x.toNat y.toNat with alive := !(m.map x.toNat y.toNat).alive },
    ?_, ?_, ?_, ?_, ?_, rfl, rfl, ?_⟩
  · unfold Map.toggle
    dsimp only
    rw [hux, huy, if_pos ⟨hxb, hyb⟩]
  · simp [Map.setCell_map]
  · simp [Map.setCell_map]
  · simp [Map.setCell_map]
  · intro a b hab
    rw [Map.setCell_map, if_neg hab]
  · unfold Map.toggle
    dsimp only
    rw [hux, huy, if_pos ⟨hxb, hyb⟩]
    exact congrArg some (Map.toggle_twice_aux m x.toNat y.toNat)

/-- Witness for C9 at `Map.new` with the in-bounds coordinate `(3, 4)`. -/
theorem claim_C9_witness :
    ((0 ≤ (3 : Int) ∧ (3 : Int) < (MAP_WIDTH : Int) ∧
      0 ≤ (4 : Int) ∧ (4 : Int) < (MAP_HEIGHT : Int)) ∧
     ∃ m1, Map.new.toggle 3 4 = some m1 ∧
      (m1.map (3 : Int).toNat (4 : Int).toNat).alive =
        !(Map.new.map (3 : Int).toNat (4 : Int).toNat).alive ∧
      (m1.map (3 : Int).toNat (4 : Int).toNat).linger =
        (Map.new.map (3 : Int).toNat (4 : Int).toNat).linger ∧
      (m1.map (3 : Int).toNat (4 : Int).toNat).flip =
        (Map.new.map (3 : Int).toNat (4 : Int).toNat).flip ∧
      (∀ a b, ¬(a = (3 : Int).toNat ∧ b = (4 : Int).toNat) →
        m1.map a b = Map.new.map a b) ∧
      m1.width = Map.new.width ∧ m1.height = Map.new.height ∧
      m1.toggle 3 4 = some Map.new) :=
  ⟨⟨by norm_num, by norm_num [MAP_WIDTH], by norm_num, by norm_num [MAP_HEIGHT]⟩,
    claim_C9_toggle_involution Map.new 3 4 (by norm_num) (by norm_num [MAP_WIDTH])
      (by norm_num) (by norm_num [MAP_HEIGHT])⟩

/-- Claim C10: every flip flag is false in a newly constructed `Map`, and
each complete public operation (`init_noise`, `toggle`, `tick`) maps a state
with all flip flags false to a state with all flip flags false: flags are
set only inside tick's decision phase and are consumed by `flip_all` before
`tick` returns. -/
theorem claim_C10_flip_invariant :
    (∀ x y, (Map.new.map x y).flip = false) ∧
    (∀ (m : Map), (∀ x y, (m.map x y).flip = false) →
      (∀ noiseAlive x y, ((m.init_noise noiseAlive).map x y).flip = false) ∧
      (∀ xi yi m2, m.toggle xi yi = some m2 → ∀ x y, (m2.map x y).flip = false) ∧
      (∀ x y, ((m.tick).map x y).flip = false)) := by
  constructor
  · intro x y; rfl
  · intro m h
    refine ⟨?_, ?_, ?_⟩
    · intro noiseAlive x y
      rw [Map.init_noise_flip]
      exact h x y
    · intro xi yi m2 hsome x y
      obtain ⟨heq, _hx, _hy⟩ := Map.toggle_some m xi yi m2 hsome
      subst heq
      rw [Map.setCell_map]
      split_ifs
      · exact h _ _
      · exact h _ _
    · intro x y
      rw [Map.tick_flip]
      split_ifs
      · rfl
      · exact h x y

/-- Witness for C10 at the concrete state `Map.new`. -/
theorem claim_C10_witness :
    ((∀ x y, (Map.new.map x y).flip = false) ∧
      (∀ x y, ((Map.new.tick).map x y).flip = false)) :=
  ⟨fun _ _ => rfl, (claim_C10_flip_invariant.2 Map.new (fun _ _ => rfl)).2.2⟩

end Conway
